import Mathlib

/-!
Verification of the Streambot experiment orchestrator (`src/desktop/scraping.js`).

The script drives repeated browser experiments while a packet sniffer runs,
writing a per-run event log.  The embedding below models, from the source:

* the configuration surface read from `config.json` and the `Experiment`
  constructor scaling (lines 150-155);
* the `Sniffer` class (lines 66-110) with Node child-process semantics
  (`spawn` returns a handle even when the spawn later fails asynchronously;
  `kill` sets the `killed` flag, so a second `stop` is a no-op);
* the event-log rows written by a successful repetition (lines 171-217),
  parametrised by a clock giving the successive `Utils.currentUnix()` values;
* one repetition of `Experiment.run` (lines 161-224) as a function over a set
  of existing files, with injected rejections of the fallible external calls
  (puppeteer launch, har start or stop, `page.goto`, browser close), and its
  `catch` handler (lines 218-223);
* the repetition loop and the main IIFE (lines 229-233) with the
  `Utils.checkCookies` preflight (lines 54-62).
-/

/-- A configured navigation target (one element of `config.channels`). -/
structure Channel where
  name : String
  link : String
  deriving Repr, DecidableEq

/-- Model of `config.sniffer`: binary path, network interface, snapshot length. -/
structure SnifferConfig where
  bin : String
  net : String
  max : String
  deriving Repr, DecidableEq

/-- The configuration surface consumed by `scraping.js` (`config.json`). -/
structure Config where
  sniffer : SnifferConfig
  fastAwait : Nat
  longAwait : Nat
  repetitions : Nat
  homepage : String
  channels : List Channel
  deriving Repr, DecidableEq

/-- Decimal digit rendered as a character, as the JS template literal
`${number + 1}` renders the digits of a number. -/
def digitChar : Nat → Char
  | 0 => '0'
  | 1 => '1'
  | 2 => '2'
  | 3 => '3'
  | 4 => '4'
  | 5 => '5'
  | 6 => '6'
  | 7 => '7'
  | 8 => '8'
  | 9 => '9'
  | _ => '*'

/-- Inverse of `digitChar` on decimal digits, used only in proofs. -/
def charDigit : Char → Nat
  | '0' => 0
  | '1' => 1
  | '2' => 2
  | '3' => 3
  | '4' => 4
  | '5' => 5
  | '6' => 6
  | '7' => 7
  | '8' => 8
  | '9' => 9
  | _ => 10

/-- Little-endian decimal digits of `n`, with explicit fuel so the kernel can
evaluate it.  `decDigitsCore fuel n` is the digit list of `n` when `n ≤ fuel`. -/
def decDigitsCore : Nat → Nat → List Nat
  | 0, _ => []
  | fuel + 1, n => if n = 0 then [] else n % 10 :: decDigitsCore fuel (n / 10)

/-- Little-endian decimal digits of `n`. -/
def decDigits (n : Nat) : List Nat := decDigitsCore n n

/-- Value of a little-endian decimal digit list, used only in proofs. -/
def ofDecDigits : List Nat → Nat
  | [] => 0
  | d :: ds => d + 10 * ofDecDigits ds

/-- Decimal rendering of a number, as the JS template literal `${n}` does. -/
def decRepr (n : Nat) : String :=
  if n = 0 then "0" else String.mk ((decDigits n).map digitChar).reverse

/-- Model of `path.join(dir, file)` for one path component. -/
def pathJoin (dir file : String) : String := dir ++ "/" ++ file

/-- Capture-file path of repetition `number` (line 167). -/
def logNetFile (dir : String) (number : Nat) : String :=
  pathJoin dir ("log_net_complete-" ++ decRepr (number + 1) ++ ".pcap")

/-- Event-log path of repetition `number` (line 168). -/
def logBotFile (dir : String) (number : Nat) : String :=
  pathJoin dir ("log_bot_complete-" ++ decRepr (number + 1) ++ ".csv")

/-- Traffic-log path of repetition `number` (line 169). -/
def logHarFile (dir : String) (number : Nat) : String :=
  pathJoin dir ("log_har_complete-" ++ decRepr (number + 1) ++ ".har")

/-- The three artifact paths of repetition `number`. -/
def artifactPaths (dir : String) (number : Nat) : List String :=
  [logNetFile dir number, logBotFile dir number, logHarFile dir number]

/-- File-existence effect of `fs.appendFileSync`: creates the file if absent.
The file system is modelled as the list of existing paths. -/
def appendFile (file : String) (fs : List String) : List String :=
  if file ∈ fs then fs else file :: fs

/-- Model of `Utils.cleanFiles(...files)` (lines 46-52): removes each listed
file that exists. -/
def cleanFiles (files : List String) (fs : List String) : List String :=
  fs.filter (fun f => decide (f ∉ files))

/-- State of the spawned capture subprocess; `killed` mirrors the Node
`ChildProcess.killed` flag, set once a signal has been sent. -/
structure SnifferProc where
  pid : Nat
  killed : Bool
  deriving Repr, DecidableEq

/-- The `Sniffer` class (lines 66-110): output path and optional subprocess
handle (`null` until `start` is called). -/
structure Sniffer where
  outputPath : String
  snifferProcess : Option SnifferProc
  deriving Repr, DecidableEq

/-- Observable side effects of the orchestrator used by the claims. -/
inductive Effect where
  | startErrorNotice
  | killSignal (signal : String)
  | waitMs (ms : Nat)
  deriving Repr, DecidableEq

/-- Model of `Sniffer.start()` (lines 72-90): `spawn` returns a subprocess
handle immediately, even when the binary is missing; a spawn failure only
fires the error callback asynchronously. -/
def Sniffer.start (s : Sniffer) : Sniffer :=
  { s with snifferProcess := some { pid := 0, killed := false } }

/-- Default value of the `signal` parameter of `Sniffer.stop` (line 92). -/
def Sniffer.defaultStopSignal : String := "SIGTERM"

/-- Model of `Sniffer.stop(signal)` (lines 92-109): sends `signal` only when a
subprocess handle exists and is not already killed; returns the new state and
the emitted termination side effects. -/
def Sniffer.stop (s : Sniffer) (signal : String) : Sniffer × List Effect :=
  match s.snifferProcess with
  | none => (s, [])
  | some p =>
    if p.killed then (s, [])
    else ({ s with snifferProcess := some { p with killed := true } },
      [Effect.killSignal signal])

/-- One event-log row: event name, absolute epoch-millisecond timestamp, and
offset from the origin timestamp. -/
structure LogEntry where
  event : String
  abs : Nat
  rel : Int
  deriving Repr, DecidableEq

/-- Rows written inside the channel loop (lines 193-207): for the channel at
timestamp-counter `k`, a `name-on` row at `clock k` and a `name-off` row at
`clock (k + 1)`. -/
def channelEntries (clock : Nat → Nat) (origin : Nat) :
    List Channel → Nat → List LogEntry
  | [], _ => []
  | c :: rest, k =>
    ⟨c.name ++ "-on", clock k, (clock k : Int) - (origin : Int)⟩ ::
    ⟨c.name ++ "-off", clock (k + 1), (clock (k + 1) : Int) - (origin : Int)⟩ ::
    channelEntries clock origin rest (k + 2)

/-- The event-log rows of a successful repetition (lines 171-217), where
`clock i` is the value returned by the i-th call to `Utils.currentUnix()`.
The `origin` row is written with the literal offset `0` (line 173). -/
def runLog (channels : List Channel) (clock : Nat → Nat) : List LogEntry :=
  let origin := clock 0
  ⟨"origin", clock 0, 0⟩ ::
  ⟨"sniffer-on", clock 1, (clock 1 : Int) - (origin : Int)⟩ ::
  ⟨"browser-on", clock 2, (clock 2 : Int) - (origin : Int)⟩ ::
  (channelEntries clock origin channels 3 ++
    [⟨"browser-off", clock (3 + 2 * channels.length),
      (clock (3 + 2 * channels.length) : Int) - (origin : Int)⟩,
     ⟨"sniffer-off", clock (4 + 2 * channels.length),
      (clock (4 + 2 * channels.length) : Int) - (origin : Int)⟩])

/-- One row in the on-disk format `"<event> <abs> <rel>"`. -/
def renderEntry (e : LogEntry) : String :=
  e.event ++ " " ++ toString e.abs ++ " " ++ toString e.rel

/-- The full event-log file of a successful repetition: the header line
written at line 171, then the rows. -/
def eventLogLines (channels : List Channel) (clock : Nat → Nat) : List String :=
  "event abs rel" :: (runLog channels clock).map renderEntry

/-- The expected event-name pattern of the channel section of the log. -/
def channelEventNames (channels : List Channel) : List String :=
  channels.flatMap (fun c => [c.name ++ "-on", c.name ++ "-off"])

/-- The `Experiment` class fields (lines 150-155). -/
structure Experiment where
  outputDir : String
  fastAwait : Nat
  longAwait : Nat
  watchAwait : Nat
  deriving Repr, DecidableEq

/-- The `Experiment` constructor (lines 150-155): the output directory is made
once, and the await settings are scaled from seconds to milliseconds, with the
watch interval derived from the long one. -/
def makeExperiment (cfg : Config) (outputDir : String) : Experiment :=
  { outputDir := outputDir
    fastAwait := cfg.fastAwait * 1000
    longAwait := cfg.longAwait * 1000
    watchAwait := cfg.longAwait * 1000 * 30 }

/-- The drain wait of line 214: `await Utils.awaiting(this.longAwait * 2)`. -/
def drainAwait (e : Experiment) : Nat := e.longAwait * 2

/-- Injected behaviour of the external collaborators during one repetition:
which fallible external operation rejects.  Operations not listed here cannot
throw in the source.  A missing capture binary (`spawnFails`) is not a
rejection: it only fires the spawn error event. -/
structure ExtBehavior where
  spawnFails : Bool
  launchFails : Bool
  harStartFails : Bool
  gotoFails : Option Nat
  harStopFails : Bool
  closeFails : Bool
  deriving Repr, DecidableEq

/-- Terminal status of one repetition: the try block ran to the end, the catch
handler ran to the end, or an exception escaped the catch handler itself. -/
inductive RepOutcome where
  | success
  | failedCleaned
  | uncaught
  deriving Repr, DecidableEq

/-- Result of one repetition: the files existing afterwards, the observable
side effects, and the terminal status. -/
structure RepResult where
  fs : List String
  effects : List Effect
  outcome : RepOutcome
  deriving Repr, DecidableEq

/-- The channel loop (lines 193-207).  `g` numbers the `page.goto` calls (the
homepage navigation of line 190 is call 0).  Rows appended to the event log do
not change file existence, so the file set is threaded unchanged; an error
value is a rejection thrown out of the loop. -/
def channelLoop (exp : Experiment) (b : ExtBehavior) :
    List Channel → Nat → List String → List Effect →
    Except (List String × List Effect) (List String × List Effect)
  | [], _, fs, effs => Except.ok (fs, effs)
  | _c :: rest, g, fs, effs =>
    if b.gotoFails = some g then Except.error (fs, effs)
    else
      let effs1 := effs ++ [Effect.waitMs exp.watchAwait]
      if b.gotoFails = some (g + 1) then Except.error (fs, effs1)
      else channelLoop exp b rest (g + 2) fs (effs1 ++ [Effect.waitMs exp.fastAwait])

/-- Tail of the try block from the channel loop on (lines 193-217): the loop,
the har stop of line 209 (which writes the traffic-log file), the browser
close of line 210, the browser-off row, the drain wait of line 214, and the
sniffer stop with the sniffer-off row. -/
def tryTail (exp : Experiment) (cfg : Config) (number : Nat) (b : ExtBehavior)
    (fs2 : List String) (eff3 : List Effect) :
    Except (List String × List Effect × Bool) (List String × List Effect) :=
  match channelLoop exp b cfg.channels 1 fs2 eff3 with
  | Except.error (fsE, effE) => Except.error (fsE, effE, true)
  | Except.ok (fs4, eff4) =>
    if b.harStopFails then Except.error (fs4, eff4, true)
    else
      let fs5 := appendFile (logHarFile exp.outputDir number) fs4
      if b.closeFails then Except.error (fs5, eff4, true)
      else
        let eff5 := eff4 ++ [Effect.waitMs (drainAwait exp)]
        let p := Sniffer.stop (Sniffer.start ⟨logNetFile exp.outputDir number, none⟩)
          Sniffer.defaultStopSignal
        Except.ok (fs5, eff5 ++ p.2)

/-- The try block of one repetition (lines 166-217).  An error value is the
state at the point an exception was thrown, together with whether the browser
handle had been set (a `puppeteer.launch` rejection leaves it null, so the
close call of the catch handler is then a no-op). -/
def tryBody (exp : Experiment) (cfg : Config) (number : Nat) (b : ExtBehavior)
    (fs0 : List String) :
    Except (List String × List Effect × Bool) (List String × List Effect) :=
  let logNet := logNetFile exp.outputDir number
  let logBot := logBotFile exp.outputDir number
  let fs1 := appendFile logBot fs0
  let fs2 := if b.spawnFails then fs1 else appendFile logNet fs1
  let eff1 := if b.spawnFails then [Effect.startErrorNotice] else ([] : List Effect)
  if b.launchFails then Except.error (fs2, eff1, false)
  else
    let eff2 := eff1 ++ [Effect.waitMs exp.fastAwait]
    if b.harStartFails then Except.error (fs2, eff2, true)
    else if b.gotoFails = some 0 then Except.error (fs2, eff2, true)
    else tryTail exp cfg number b fs2 (eff2 ++ [Effect.waitMs exp.longAwait])

/-- The catch handler (lines 218-223): close the browser if its handle was
set (a rejection here escapes the handler, since the catch block has no
internal guard), then `cleanFiles` on the three artifact paths, then
`sniffer.stop()`. -/
def catchHandler (b : ExtBehavior) (browserLaunched : Bool) (paths : List String)
    (sniffer : Sniffer) (fs : List String) (effs : List Effect) : RepResult :=
  if browserLaunched && b.closeFails then ⟨fs, effs, RepOutcome.uncaught⟩
  else
    let fs1 := cleanFiles paths fs
    let p := Sniffer.stop sniffer Sniffer.defaultStopSignal
    ⟨fs1, effs ++ p.2, RepOutcome.failedCleaned⟩

/-- One repetition of `Experiment.run` (lines 161-224): the try block, with
the catch handler on its error path. -/
def runRep (exp : Experiment) (cfg : Config) (number : Nat) (b : ExtBehavior)
    (fs0 : List String) : RepResult :=
  match tryBody exp cfg number b fs0 with
  | Except.ok (fs, effs) => ⟨fs, effs, RepOutcome.success⟩
  | Except.error (fsE, effE, browserLaunched) =>
    catchHandler b browserLaunched (artifactPaths exp.outputDir number)
      (Sniffer.start ⟨logNetFile exp.outputDir number, none⟩) fsE effE

/-- Result of the repetition loop: final file set, how many repetitions were
entered, and whether an exception escaped a repetition (ending the loop). -/
structure LoopResult where
  fs : List String
  attempted : Nat
  uncaughtError : Bool
  deriving Repr, DecidableEq

/-- The repetition loop (line 161): repetitions run in order; an exception
escaping a repetition's catch handler aborts the loop. -/
def runLoop (exp : Experiment) (cfg : Config) (beh : Nat → ExtBehavior) :
    Nat → Nat → List String → LoopResult
  | 0, _, fs => ⟨fs, 0, false⟩
  | remaining + 1, number, fs =>
    let r := runRep exp cfg number (beh number) fs
    if r.outcome = RepOutcome.uncaught then ⟨r.fs, 1, true⟩
    else
      let rest := runLoop exp cfg beh remaining (number + 1) r.fs
      ⟨rest.fs, rest.attempted + 1, rest.uncaughtError⟩

/-- Ambient state read by the preflight check. -/
structure World where
  userDataExists : Bool
  deriving Repr, DecidableEq

/-- The two lines printed by `Utils.checkCookies` (lines 58-59) when the
`user_data` directory is missing, with `t` the precomputed timestamp string. -/
def checkCookiesLines (t : String) : List String :=
  ["[" ++ t ++ "] The \x27user_data\x27 directory does not exist.",
   "[" ++ t ++ "] Please run \x27node register.js\x27 to set up the user data."]

/-- Observable outcome of the whole process: lines printed by the preflight
check, the exit status (`none` models an unhandled rejection escaping the
main IIFE), how many output directories were made, and how many repetitions
were entered. -/
structure MainResult where
  printed : List String
  exitCode : Option Nat
  dirsCreated : Nat
  attempted : Nat
  deriving Repr, DecidableEq

/-- The main IIFE (lines 229-233): the preflight check, then the `Experiment`
constructor (making the output directory once), then the repetition loop.
When `user_data` is missing the process prints two lines and exits with
status 1 before the constructor runs. -/
def mainModel (w : World) (t : String) (cfg : Config) (outputDir : String)
    (beh : Nat → ExtBehavior) : MainResult :=
  if w.userDataExists = false then
    ⟨checkCookiesLines t, some 1, 0, 0⟩
  else
    let exp := makeExperiment cfg outputDir
    let lr := runLoop exp cfg beh cfg.repetitions 0 []
    ⟨[], if lr.uncaughtError then none else some 0, 1, lr.attempted⟩

/-- A sample channel, used to instantiate theorems at concrete inputs. -/
def sampleChannel : Channel := ⟨"A", "linkA"⟩

/-- A sample configuration with one channel and two repetitions. -/
def sampleCfg : Config :=
  ⟨⟨"tshark", "eth0", "65535"⟩, 1, 2, 2, "home", [sampleChannel]⟩

/-- The experiment built from the sample configuration. -/
def sampleExp : Experiment := makeExperiment sampleCfg "out"

/-- Behaviour where every external operation succeeds. -/
def okBehavior : ExtBehavior := ⟨false, false, false, none, false, false⟩

/-- Behaviour where the first homepage navigation rejects and cleanup works. -/
def gotoFailBehavior : ExtBehavior := ⟨false, false, false, some 0, false, false⟩

/-- Behaviour where a navigation rejects and the browser close also rejects
when the catch handler calls it. -/
def gotoCloseFailBehavior : ExtBehavior := ⟨false, false, false, some 0, false, true⟩

/-- Behaviour where only the capture-binary spawn fails. -/
def spawnFailBehavior : ExtBehavior := ⟨true, false, false, none, false, false⟩

/-- The identity clock, a monotone sample timestamp source. -/
def sampleClock : Nat → Nat := fun i => i

/-! ### String and decimal-rendering lemmas -/

theorem string_eq_of_data {s t : String} (h : s.data = t.data) : s = t := by
  cases s
  cases t
  exact congrArg String.mk h

theorem string_append_left_cancel {p a b : String} (h : p ++ a = p ++ b) : a = b := by
  apply string_eq_of_data
  have hd := congrArg String.data h
  rw [String.data_append, String.data_append] at hd
  exact List.append_cancel_left hd

theorem string_append_right_cancel {a b s : String} (h : a ++ s = b ++ s) : a = b := by
  apply string_eq_of_data
  have hd := congrArg String.data h
  rw [String.data_append, String.data_append] at hd
  exact List.append_cancel_right hd

theorem string_append_assoc (a b c : String) : a ++ b ++ c = a ++ (b ++ c) := by
  apply string_eq_of_data
  simp [String.data_append]

theorem string_append_ne_of_front_ne {p q : String} (a b : String)
    (hl : p.length = q.length) (hne : p ≠ q) : p ++ a ≠ q ++ b := by
  intro h
  apply hne
  apply string_eq_of_data
  have hd := congrArg String.data h
  rw [String.data_append, String.data_append] at hd
  exact (List.append_inj hd hl).1

theorem charDigit_digitChar {d : Nat} (h : d < 10) : charDigit (digitChar d) = d := by
  interval_cases d <;> rfl

theorem decDigitsCore_lt_ten : ∀ fuel n d, d ∈ decDigitsCore fuel n → d < 10 := by
  intro fuel
  induction fuel with
  | zero => intro n d h; simp [decDigitsCore] at h
  | succ fuel ih =>
    intro n d h
    by_cases hn : n = 0
    · simp [decDigitsCore, hn] at h
    · simp only [decDigitsCore, if_neg hn, List.mem_cons] at h
      rcases h with h | h
      · omega
      · exact ih _ _ h

theorem decDigits_lt_ten {n d : Nat} (h : d ∈ decDigits n) : d < 10 :=
  decDigitsCore_lt_ten n n d h

theorem ofDecDigits_decDigitsCore : ∀ fuel n, n ≤ fuel →
    ofDecDigits (decDigitsCore fuel n) = n := by
  intro fuel
  induction fuel with
  | zero => intro n h; interval_cases n; rfl
  | succ fuel ih =>
    intro n h
    by_cases hn : n = 0
    · simp [decDigitsCore, hn, ofDecDigits]
    · have hdiv : n / 10 ≤ fuel := by omega
      have hrec := ih (n / 10) hdiv
      simp only [decDigitsCore, if_neg hn, ofDecDigits, hrec]
      omega

theorem ofDecDigits_decDigits (n : Nat) : ofDecDigits (decDigits n) = n :=
  ofDecDigits_decDigitsCore n n le_rfl

theorem map_charDigit_digitChar : ∀ xs : List Nat, (∀ d ∈ xs, d < 10) →
    (xs.map digitChar).map charDigit = xs := by
  intro xs
  induction xs with
  | nil => intro _; rfl
  | cons d ds ih =>
    intro h
    simp only [List.map_cons]
    rw [charDigit_digitChar (h d (by simp)), ih (fun e he => h e (by simp [he]))]

theorem map_digitChar_inj {xs ys : List Nat} (hx : ∀ d ∈ xs, d < 10)
    (hy : ∀ d ∈ ys, d < 10) (h : xs.map digitChar = ys.map digitChar) : xs = ys := by
  have hmap := congrArg (List.map charDigit) h
  rwa [map_charDigit_digitChar xs hx, map_charDigit_digitChar ys hy] at hmap

theorem decDigits_inj {m n : Nat} (h : decDigits m = decDigits n) : m = n := by
  have hv := congrArg ofDecDigits h
  rwa [ofDecDigits_decDigits, ofDecDigits_decDigits] at hv

theorem decRepr_ne_zero_repr {k : Nat} (hk : k ≠ 0) : decRepr k ≠ "0" := by
  intro hcontra
  have hd := congrArg String.data hcontra
  unfold decRepr at hd
  rw [if_neg hk] at hd
  have hrev := congrArg List.reverse hd
  simp only [List.reverse_reverse] at hrev
  have hdig : decDigits k = [0] := by
    apply map_digitChar_inj (fun d hdm => decDigits_lt_ten hdm)
      (by intro d hdm; simp at hdm; omega)
    simpa using hrev
  have hval := congrArg ofDecDigits hdig
  rw [ofDecDigits_decDigits] at hval
  simp [ofDecDigits] at hval
  exact hk hval

theorem decRepr_inj {m n : Nat} (h : decRepr m = decRepr n) : m = n := by
  by_cases hm : m = 0 <;> by_cases hn : n = 0
  · omega
  · subst hm
    exact absurd (h.symm.trans (by rfl)) (decRepr_ne_zero_repr hn)
  · subst hn
    exact absurd (h.trans (by rfl)) (decRepr_ne_zero_repr hm)
  · unfold decRepr at h
    rw [if_neg hm, if_neg hn] at h
    have hd := congrArg String.data h
    have hrev := congrArg List.reverse hd
    simp only [List.reverse_reverse] at hrev
    exact decDigits_inj (map_digitChar_inj (fun d hdm => decDigits_lt_ten hdm)
      (fun d hdn => decDigits_lt_ten hdn) (by simpa using hrev))

/-! ### Artifact-path lemmas -/

theorem pathJoin_inj_file {d a b : String} (h : pathJoin d a = pathJoin d b) : a = b :=
  string_append_left_cancel h

theorem logFile_kind_ne {d k1 k2 e1 e2 : String} {i j : Nat}
    (hl : k1.length = k2.length) (hk : k1 ≠ k2) :
    pathJoin d (k1 ++ decRepr i ++ e1) ≠ pathJoin d (k2 ++ decRepr j ++ e2) := by
  intro h
  have h1 := pathJoin_inj_file h
  rw [string_append_assoc, string_append_assoc] at h1
  exact string_append_ne_of_front_ne _ _ hl hk h1

theorem logFile_num_ne {d k e : String} {i j : Nat} (hij : i ≠ j) :
    pathJoin d (k ++ decRepr i ++ e) ≠ pathJoin d (k ++ decRepr j ++ e) := by
  intro h
  have h1 := pathJoin_inj_file h
  rw [string_append_assoc, string_append_assoc] at h1
  have h2 := string_append_left_cancel h1
  exact hij (decRepr_inj (string_append_right_cancel h2))

theorem artifactPaths_disjoint {d : String} {i j : Nat} (hij : i ≠ j) :
    ∀ f ∈ artifactPaths d i, f ∉ artifactPaths d j := by
  have hij1 : i + 1 ≠ j + 1 := by omega
  intro f hf hg
  simp only [artifactPaths, List.mem_cons, List.not_mem_nil, or_false] at hf hg
  rcases hf with hf | hf | hf <;> rcases hg with hg | hg | hg <;> rw [hf] at hg <;>
      simp only [logNetFile, logBotFile, logHarFile] at hg
  · exact logFile_num_ne hij1 hg
  · exact logFile_kind_ne (by decide) (by decide) hg
  · exact logFile_kind_ne (by decide) (by decide) hg
  · exact logFile_kind_ne (by decide) (by decide) hg
  · exact logFile_num_ne hij1 hg
  · exact logFile_kind_ne (by decide) (by decide) hg
  · exact logFile_kind_ne (by decide) (by decide) hg
  · exact logFile_kind_ne (by decide) (by decide) hg
  · exact logFile_num_ne hij1 hg

/-! ### File-set lemmas -/

theorem mem_appendFile {f g : String} {fs : List String} :
    f ∈ appendFile g fs ↔ f = g ∨ f ∈ fs := by
  unfold appendFile
  by_cases hg : g ∈ fs
  · rw [if_pos hg]
    constructor
    · exact Or.inr
    · rintro (rfl | h)
      · exact hg
      · exact h
  · rw [if_neg hg]
    exact List.mem_cons

theorem mem_appendFile_ne {f g : String} {fs : List String} (h : f ≠ g) :
    f ∈ appendFile g fs ↔ f ∈ fs := by
  rw [mem_appendFile]
  simp [h]

theorem self_mem_appendFile (f : String) (fs : List String) : f ∈ appendFile f fs :=
  mem_appendFile.mpr (Or.inl rfl)

theorem mem_appendFile_of_mem {f g : String} {fs : List String} (h : f ∈ fs) :
    f ∈ appendFile g fs :=
  mem_appendFile.mpr (Or.inr h)

theorem mem_cleanFiles {f : String} {l fs : List String} :
    f ∈ cleanFiles l fs ↔ f ∈ fs ∧ f ∉ l := by
  simp [cleanFiles]

theorem not_mem_cleanFiles {f : String} {l fs : List String} (h : f ∈ l) :
    f ∉ cleanFiles l fs :=
  fun hc => (mem_cleanFiles.mp hc).2 h

/-! ### Sniffer lemmas -/

theorem sniffer_stop_stop (s : Sniffer) (sig1 sig2 : String) :
    Sniffer.stop (Sniffer.stop s sig1).1 sig2 = ((Sniffer.stop s sig1).1, []) := by
  rcases s with ⟨path, _ | p⟩
  · rfl
  · by_cases hk : p.killed
    · simp [Sniffer.stop, hk]
    · simp [Sniffer.stop, hk]

/-! ### Channel-loop lemmas -/

theorem channelLoop_fs_eq (exp : Experiment) (b : ExtBehavior) :
    ∀ (cs : List Channel) (g : Nat) (fs : List String) (effs : List Effect),
      (∀ fsE effE, channelLoop exp b cs g fs effs = Except.error (fsE, effE) → fsE = fs) ∧
      (∀ fsO effO, channelLoop exp b cs g fs effs = Except.ok (fsO, effO) → fsO = fs) := by
  intro cs
  induction cs with
  | nil =>
    intro g fs effs
    constructor
    · intro fsE effE h
      simp [channelLoop] at h
    · intro fsO effO h
      simp [channelLoop] at h
      exact h.1.symm
  | cons c rest ih =>
    intro g fs effs
    constructor <;> intro x y h <;> simp only [channelLoop] at h
    · split at h
      · simp at h
        exact h.1.symm
      · split at h
        · simp at h
          exact h.1.symm
        · exact (ih (g + 2) fs _).1 x y h
    · split at h
      · simp at h
      · split at h
        · simp at h
        · exact (ih (g + 2) fs _).2 x y h

theorem channelLoop_ok_none (exp : Experiment) (b : ExtBehavior) (hb : b.gotoFails = none) :
    ∀ (cs : List Channel) (g : Nat) (fs : List String) (effs : List Effect),
      ∃ effO, channelLoop exp b cs g fs effs = Except.ok (fs, effs ++ effO) := by
  intro cs
  induction cs with
  | nil =>
    intro g fs effs
    exact ⟨[], by simp [channelLoop]⟩
  | cons c rest ih =>
    intro g fs effs
    obtain ⟨e1, he⟩ :=
      ih (g + 2) fs (effs ++ [Effect.waitMs exp.watchAwait] ++ [Effect.waitMs exp.fastAwait])
    refine ⟨[Effect.waitMs exp.watchAwait] ++ [Effect.waitMs exp.fastAwait] ++ e1, ?_⟩
    simp only [channelLoop, hb]
    simpa using he

/-! ### Per-repetition lemmas -/

theorem catchHandler_uncaught {b : ExtBehavior} {bl : Bool} {paths : List String}
    {sn : Sniffer} {fs : List String} {effs : List Effect}
    (h : (bl && b.closeFails) = true) :
    catchHandler b bl paths sn fs effs = ⟨fs, effs, RepOutcome.uncaught⟩ := by
  simp [catchHandler, h]

theorem catchHandler_cleaned {b : ExtBehavior} {bl : Bool} {paths : List String}
    {sn : Sniffer} {fs : List String} {effs : List Effect}
    (h : (bl && b.closeFails) = false) :
    catchHandler b bl paths sn fs effs =
      ⟨cleanFiles paths fs, effs ++ (Sniffer.stop sn Sniffer.defaultStopSignal).2,
        RepOutcome.failedCleaned⟩ := by
  simp [catchHandler, h]

theorem runRep_of_tryBody_error {exp : Experiment} {cfg : Config} {number : Nat}
    {b : ExtBehavior} {fs0 fsE : List String} {effE : List Effect} {bl : Bool}
    (h : tryBody exp cfg number b fs0 = Except.error (fsE, effE, bl)) :
    runRep exp cfg number b fs0 =
      catchHandler b bl (artifactPaths exp.outputDir number)
        (Sniffer.start ⟨logNetFile exp.outputDir number, none⟩) fsE effE := by
  unfold runRep
  rw [h]

theorem runRep_of_tryBody_ok {exp : Experiment} {cfg : Config} {number : Nat}
    {b : ExtBehavior} {fs0 fsO : List String} {effO : List Effect}
    (h : tryBody exp cfg number b fs0 = Except.ok (fsO, effO)) :
    runRep exp cfg number b fs0 = ⟨fsO, effO, RepOutcome.success⟩ := by
  unfold runRep
  rw [h]

theorem runRep_failedCleaned_fs {exp : Experiment} {cfg : Config} {number : Nat}
    {b : ExtBehavior} {fs0 : List String}
    (h : (runRep exp cfg number b fs0).outcome = RepOutcome.failedCleaned) :
    ∃ fsE, (runRep exp cfg number b fs0).fs =
      cleanFiles (artifactPaths exp.outputDir number) fsE := by
  rcases htb : tryBody exp cfg number b fs0 with ⟨fsE, effE, bl⟩ | ⟨fsO, effO⟩
  · have hr := runRep_of_tryBody_error htb
    by_cases hc : (bl && b.closeFails) = true
    · rw [hr, catchHandler_uncaught hc] at h
      simp at h
    · rw [hr, catchHandler_cleaned (by simpa using hc)]
      exact ⟨fsE, rfl⟩
  · rw [runRep_of_tryBody_ok htb] at h
    simp at h

theorem runRep_not_uncaught (exp : Experiment) (cfg : Config) (number : Nat)
    (b : ExtBehavior) (fs0 : List String) (h : b.closeFails = false) :
    (runRep exp cfg number b fs0).outcome ≠ RepOutcome.uncaught := by
  rcases htb : tryBody exp cfg number b fs0 with ⟨fsE, effE, bl⟩ | ⟨fsO, effO⟩
  · rw [runRep_of_tryBody_error htb, catchHandler_cleaned (by simp [h])]
    simp
  · rw [runRep_of_tryBody_ok htb]
    simp

theorem tryTail_fs (exp : Experiment) (cfg : Config) (number : Nat) (b : ExtBehavior)
    (fs2 : List String) (eff3 : List Effect) (f : String)
    (hfh : f ≠ logHarFile exp.outputDir number) :
    (∀ fsE effE bl, tryTail exp cfg number b fs2 eff3 = Except.error (fsE, effE, bl) →
      (f ∈ fsE ↔ f ∈ fs2)) ∧
    (∀ fsO effO, tryTail exp cfg number b fs2 eff3 = Except.ok (fsO, effO) →
      (f ∈ fsO ↔ f ∈ fs2)) := by
  rcases hcl : channelLoop exp b cfg.channels 1 fs2 eff3 with ⟨fsE2, effE2⟩ | ⟨fs4, eff4⟩
  · have hfs : fsE2 = fs2 :=
      (channelLoop_fs_eq exp b cfg.channels 1 fs2 eff3).1 fsE2 effE2 hcl
    constructor
    · intro x y bl h
      simp only [tryTail, hcl] at h
      cases h
      rw [hfs]
    · intro x y h
      simp only [tryTail, hcl] at h
      simp at h
  · have hfs : fs4 = fs2 :=
      (channelLoop_fs_eq exp b cfg.channels 1 fs2 eff3).2 fs4 eff4 hcl
    constructor
    · intro x y bl h
      simp only [tryTail, hcl] at h
      by_cases hhp : b.harStopFails
      · rw [if_pos hhp] at h
        cases h
        rw [hfs]
      · rw [if_neg hhp] at h
        by_cases hcf : b.closeFails
        · rw [if_pos hcf] at h
          cases h
          rw [mem_appendFile_ne hfh, hfs]
        · rw [if_neg hcf] at h
          simp at h
    · intro x y h
      simp only [tryTail, hcl] at h
      by_cases hhp : b.harStopFails
      · rw [if_pos hhp] at h
        simp at h
      · rw [if_neg hhp] at h
        by_cases hcf : b.closeFails
        · rw [if_pos hcf] at h
          simp at h
        · rw [if_neg hcf] at h
          cases h
          rw [mem_appendFile_ne hfh, hfs]

theorem tryBody_fs_outside (exp : Experiment) (cfg : Config) (number : Nat)
    (b : ExtBehavior) (fs0 : List String) (f : String)
    (hf : f ∉ artifactPaths exp.outputDir number) :
    (∀ fsE effE bl, tryBody exp cfg number b fs0 = Except.error (fsE, effE, bl) →
      (f ∈ fsE ↔ f ∈ fs0)) ∧
    (∀ fsO effO, tryBody exp cfg number b fs0 = Except.ok (fsO, effO) →
      (f ∈ fsO ↔ f ∈ fs0)) := by
  obtain ⟨hfn, hfb, hfh⟩ :
      f ≠ logNetFile exp.outputDir number ∧ f ≠ logBotFile exp.outputDir number ∧
        f ≠ logHarFile exp.outputDir number := by
    simpa [artifactPaths] using hf
  have hm2 : f ∈ (if b.spawnFails
        then appendFile (logBotFile exp.outputDir number) fs0
        else appendFile (logNetFile exp.outputDir number)
          (appendFile (logBotFile exp.outputDir number) fs0)) ↔ f ∈ fs0 := by
    split
    · exact mem_appendFile_ne hfb
    · rw [mem_appendFile_ne hfn, mem_appendFile_ne hfb]
  constructor
  · intro x y bl h
    simp only [tryBody] at h
    by_cases hL : b.launchFails
    · rw [if_pos hL] at h
      cases h
      exact hm2
    · rw [if_neg hL] at h
      by_cases hhs : b.harStartFails
      · rw [if_pos hhs] at h
        cases h
        exact hm2
      · rw [if_neg hhs] at h
        by_cases hg0 : b.gotoFails = some 0
        · rw [if_pos hg0] at h
          cases h
          exact hm2
        · rw [if_neg hg0] at h
          exact ((tryTail_fs exp cfg number b _ _ f hfh).1 x y bl h).trans hm2
  · intro x y h
    simp only [tryBody] at h
    by_cases hL : b.launchFails
    · rw [if_pos hL] at h
      simp at h
    · rw [if_neg hL] at h
      by_cases hhs : b.harStartFails
      · rw [if_pos hhs] at h
        simp at h
      · rw [if_neg hhs] at h
        by_cases hg0 : b.gotoFails = some 0
        · rw [if_pos hg0] at h
          simp at h
        · rw [if_neg hg0] at h
          exact ((tryTail_fs exp cfg number b _ _ f hfh).2 x y h).trans hm2

theorem runRep_fs_outside (exp : Experiment) (cfg : Config) (number : Nat)
    (b : ExtBehavior) (fs0 : List String) (f : String)
    (hf : f ∉ artifactPaths exp.outputDir number) :
    f ∈ (runRep exp cfg number b fs0).fs ↔ f ∈ fs0 := by
  rcases htb : tryBody exp cfg number b fs0 with ⟨fsE, effE, bl⟩ | ⟨fsO, effO⟩
  · have hmem := (tryBody_fs_outside exp cfg number b fs0 f hf).1 fsE effE bl htb
    rw [runRep_of_tryBody_error htb]
    by_cases hc : (bl && b.closeFails) = true
    · rw [catchHandler_uncaught hc]
      exact hmem
    · rw [catchHandler_cleaned (by simpa using hc)]
      simp only [mem_cleanFiles]
      constructor
      · intro hx
        exact hmem.mp hx.1
      · intro hx
        exact ⟨hmem.mpr hx, hf⟩
  · have hmem := (tryBody_fs_outside exp cfg number b fs0 f hf).2 fsO effO htb
    rw [runRep_of_tryBody_ok htb]
    exact hmem

/-! ### Event-log lemmas -/

theorem channelEntries_events (clock : Nat → Nat) (origin : Nat) :
    ∀ (cs : List Channel) (k : Nat),
      (channelEntries clock origin cs k).map LogEntry.event = channelEventNames cs := by
  intro cs
  induction cs with
  | nil => intro k; rfl
  | cons c rest ih =>
    intro k
    simp [channelEntries, channelEventNames, ih (k + 2)]

theorem channelEntries_length (clock : Nat → Nat) (origin : Nat) :
    ∀ (cs : List Channel) (k : Nat),
      (channelEntries clock origin cs k).length = 2 * cs.length := by
  intro cs
  induction cs with
  | nil => intro k; rfl
  | cons c rest ih =>
    intro k
    simp [channelEntries, ih (k + 2)]
    omega

theorem channelEntries_rel_abs (clock : Nat → Nat) (origin : Nat) :
    ∀ (cs : List Channel) (k : Nat),
      ∀ e ∈ channelEntries clock origin cs k, e.rel = (e.abs : Int) - (origin : Int) := by
  intro cs
  induction cs with
  | nil => intro k e he; simp [channelEntries] at he
  | cons c rest ih =>
    intro k e he
    simp only [channelEntries, List.mem_cons] at he
    rcases he with he | he | he
    · rw [he]
    · rw [he]
    · exact ih (k + 2) e he

theorem runLog_rel_abs (channels : List Channel) (clock : Nat → Nat) :
    ∀ e ∈ runLog channels clock, e.rel = (e.abs : Int) - (clock 0 : Int) := by
  intro e he
  simp only [runLog, List.mem_cons, List.mem_append] at he
  rcases he with he | he | he | he
  · rw [he]
    simp
  · rw [he]
  · rw [he]
  · rcases he with he | he
    · exact channelEntries_rel_abs clock (clock 0) channels 3 e he
    · simp only [List.mem_cons, List.not_mem_nil, or_false] at he
      rcases he with he | he
      · rw [he]
      · rw [he]

theorem chain_channelEntries (clock : Nat → Nat) (origin : Nat)
    (hmono : ∀ i j, i ≤ j → clock i ≤ clock j) :
    ∀ (cs : List Channel) (k : Nat) (suffix : List LogEntry),
      List.Chain' (fun a b => a.rel ≤ b.rel) suffix →
      (∀ t ∈ suffix.head?, ((clock (k + 2 * cs.length) : Int) - (origin : Int)) ≤ t.rel) →
      List.Chain' (fun a b => a.rel ≤ b.rel) (channelEntries clock origin cs k ++ suffix) ∧
      (∀ t ∈ (channelEntries clock origin cs k ++ suffix).head?,
        ((clock k : Int) - (origin : Int)) ≤ t.rel) := by
  intro cs
  induction cs with
  | nil =>
    intro k suffix hsuf hhead
    refine ⟨by simpa [channelEntries] using hsuf, ?_⟩
    intro t ht
    simp only [channelEntries, List.nil_append] at ht
    have := hhead t ht
    simpa using this
  | cons c rest ih =>
    intro k suffix hsuf hhead
    have hhead2 : ∀ t ∈ suffix.head?,
        ((clock (k + 2 + 2 * rest.length) : Int) - (origin : Int)) ≤ t.rel := by
      intro t ht
      have harg : k + 2 * (c :: rest).length = k + 2 + 2 * rest.length := by
        simp [List.length_cons]
        ring
      have hb := hhead t ht
      rwa [harg] at hb
    obtain ⟨hch, hhd⟩ := ih (k + 2) suffix hsuf hhead2
    constructor
    · simp only [channelEntries, List.cons_append]
      rw [List.chain'_cons']
      constructor
      · intro y hy
        simp at hy
        subst hy
        show ((clock k : Int) - (origin : Int)) ≤ ((clock (k + 1) : Int) - (origin : Int))
        have := hmono k (k + 1) (by omega)
        omega
      · rw [List.chain'_cons']
        refine ⟨?_, hch⟩
        intro y hy
        have h12 : ((clock (k + 1) : Int) - (origin : Int)) ≤
            ((clock (k + 2) : Int) - (origin : Int)) := by
          have := hmono (k + 1) (k + 2) (by omega)
          omega
        exact le_trans h12 (hhd y hy)
    · intro t ht
      simp only [channelEntries, List.cons_append, List.head?_cons] at ht
      simp at ht
      subst ht
      exact le_rfl

theorem runLog_chain (channels : List Channel) (clock : Nat → Nat)
    (hmono : ∀ i j, i ≤ j → clock i ≤ clock j) :
    List.Chain' (fun a b => a.rel ≤ b.rel) (runLog channels clock) := by
  have hstep : ∀ i j, i ≤ j →
      ((clock i : Int) - (clock 0 : Int)) ≤ ((clock j : Int) - (clock 0 : Int)) := by
    intro i j h
    have := hmono i j h
    omega
  have hsuf : List.Chain' (fun a b => a.rel ≤ b.rel)
      ([⟨"browser-off", clock (3 + 2 * channels.length),
          (clock (3 + 2 * channels.length) : Int) - (clock 0 : Int)⟩,
        ⟨"sniffer-off", clock (4 + 2 * channels.length),
          (clock (4 + 2 * channels.length) : Int) - (clock 0 : Int)⟩] : List LogEntry) := by
    rw [List.chain'_cons']
    refine ⟨?_, List.chain'_singleton _⟩
    intro y hy
    simp at hy
    subst hy
    exact hstep (3 + 2 * channels.length) (4 + 2 * channels.length) (by omega)
  have hhead : ∀ t ∈ (([⟨"browser-off", clock (3 + 2 * channels.length),
          (clock (3 + 2 * channels.length) : Int) - (clock 0 : Int)⟩,
        ⟨"sniffer-off", clock (4 + 2 * channels.length),
          (clock (4 + 2 * channels.length) : Int) - (clock 0 : Int)⟩] :
          List LogEntry)).head?,
      ((clock (3 + 2 * channels.length) : Int) - (clock 0 : Int)) ≤ t.rel := by
    intro t ht
    simp at ht
    subst ht
    exact le_rfl
  obtain ⟨hch, hhd⟩ := chain_channelEntries clock (clock 0) hmono channels 3 _ hsuf
    (by
      intro t ht
      exact hhead t ht)
  simp only [runLog]
  rw [List.chain'_cons']
  constructor
  · intro y hy
    simp at hy
    subst hy
    show (0 : Int) ≤ (clock 1 : Int) - (clock 0 : Int)
    have := hmono 0 1 (by omega)
    omega
  · rw [List.chain'_cons']
    constructor
    · intro y hy
      simp at hy
      subst hy
      show ((clock 1 : Int) - (clock 0 : Int)) ≤ ((clock 2 : Int) - (clock 0 : Int))
      have := hmono 1 2 (by omega)
      omega
    · rw [List.chain'_cons']
      refine ⟨?_, hch⟩
      intro y hy
      have h23 : ((clock 2 : Int) - (clock 0 : Int)) ≤ ((clock 3 : Int) - (clock 0 : Int)) :=
        hstep 2 3 (by omega)
      exact le_trans h23 (hhd y hy)

/-! ### Loop lemmas -/

theorem runLoop_all_attempted (exp : Experiment) (cfg : Config) (beh : Nat → ExtBehavior)
    (h : ∀ k, (beh k).closeFails = false) :
    ∀ (remaining number : Nat) (fs : List String),
      (runLoop exp cfg beh remaining number fs).attempted = remaining ∧
      (runLoop exp cfg beh remaining number fs).uncaughtError = false := by
  intro remaining
  induction remaining with
  | zero => intro number fs; exact ⟨rfl, rfl⟩
  | succ remaining ih =>
    intro number fs
    have hnot := runRep_not_uncaught exp cfg number (beh number) fs (h number)
    simp only [runLoop]
    rw [if_neg hnot]
    obtain ⟨h1, h2⟩ := ih (number + 1) (runRep exp cfg number (beh number) fs).fs
    constructor
    · show (runLoop exp cfg beh remaining (number + 1)
        (runRep exp cfg number (beh number) fs).fs).attempted + 1 = remaining + 1
      rw [h1]
    · show (runLoop exp cfg beh remaining (number + 1)
        (runRep exp cfg number (beh number) fs).fs).uncaughtError = false
      exact h2

/-! ### Success-path lemmas for a spawn failure -/

theorem tryTail_ok_none (exp : Experiment) (cfg : Config) (number : Nat) (b : ExtBehavior)
    (h4 : b.gotoFails = none) (h5 : b.harStopFails = false) (h6 : b.closeFails = false)
    (fs2 : List String) (eff3 : List Effect) :
    ∃ effO, tryTail exp cfg number b fs2 eff3 =
      Except.ok (appendFile (logHarFile exp.outputDir number) fs2, eff3 ++ effO) := by
  obtain ⟨e1, hcl⟩ := channelLoop_ok_none exp b h4 cfg.channels 1 fs2 eff3
  refine ⟨e1 ++ [Effect.waitMs (drainAwait exp)] ++
    (Sniffer.stop (Sniffer.start ⟨logNetFile exp.outputDir number, none⟩)
      Sniffer.defaultStopSignal).2, ?_⟩
  simp only [tryTail, hcl]
  rw [if_neg (by simp [h5]), if_neg (by simp [h6])]
  simp [List.append_assoc]

theorem tryBody_spawnFail_ok (exp : Experiment) (cfg : Config) (number : Nat)
    (b : ExtBehavior) (fs0 : List String)
    (h1 : b.spawnFails = true) (h2 : b.launchFails = false) (h3 : b.harStartFails = false)
    (h4 : b.gotoFails = none) (h5 : b.harStopFails = false) (h6 : b.closeFails = false) :
    ∃ eff, tryBody exp cfg number b fs0 = Except.ok
      (appendFile (logHarFile exp.outputDir number)
        (appendFile (logBotFile exp.outputDir number) fs0), eff) ∧
      Effect.startErrorNotice ∈ eff := by
  obtain ⟨effO, htt⟩ := tryTail_ok_none exp cfg number b h4 h5 h6
    (appendFile (logBotFile exp.outputDir number) fs0)
    (([Effect.startErrorNotice] ++ [Effect.waitMs exp.fastAwait]) ++
      [Effect.waitMs exp.longAwait])
  refine ⟨(([Effect.startErrorNotice] ++ [Effect.waitMs exp.fastAwait]) ++
      [Effect.waitMs exp.longAwait]) ++ effO, ?_, by simp⟩
  simp only [tryBody]
  rw [if_neg (by simp [h2]), if_neg (by simp [h3]), if_neg (by simp [h4]),
    if_pos h1, if_pos h1]
  exact htt

/-! ### Claim theorems -/

/-- C1: for every successful run, the event-log file has the header line
followed by exactly 3 + 2·|channels| + 2 rows in the order origin,
sniffer-on, browser-on, the per-channel on and off pairs in configured order,
browser-off, sniffer-off. -/
theorem event_log_structure (channels : List Channel) (clock : Nat → Nat) :
    eventLogLines channels clock =
      "event abs rel" :: (runLog channels clock).map renderEntry ∧
    (runLog channels clock).map LogEntry.event =
      "origin" :: "sniffer-on" :: "browser-on" ::
        (channelEventNames channels ++ ["browser-off", "sniffer-off"]) ∧
    (runLog channels clock).length = 3 + 2 * channels.length + 2 := by
  refine ⟨rfl, ?_, ?_⟩
  · simp [runLog, channelEntries_events]
  · simp [runLog, channelEntries_length]
    omega

/-- C2: with a monotone clock, the offset column of a successful run's log is
non-decreasing from the origin row (offset 0) to the final sniffer-off row,
and every offset equals the row's absolute timestamp minus the origin. -/
theorem event_log_offsets_monotone (channels : List Channel) (clock : Nat → Nat)
    (hmono : ∀ i j, i ≤ j → clock i ≤ clock j) :
    (runLog channels clock).head? = some ⟨"origin", clock 0, 0⟩ ∧
    (∀ e ∈ runLog channels clock, e.rel = (e.abs : Int) - (clock 0 : Int)) ∧
    List.Chain' (fun a b => a.rel ≤ b.rel) (runLog channels clock) ∧
    ((runLog channels clock).getLast?).map LogEntry.event = some "sniffer-off" := by
  refine ⟨rfl, runLog_rel_abs channels clock, runLog_chain channels clock hmono, ?_⟩
  have hre : runLog channels clock =
      (⟨"origin", clock 0, 0⟩ ::
        ⟨"sniffer-on", clock 1, (clock 1 : Int) - (clock 0 : Int)⟩ ::
        ⟨"browser-on", clock 2, (clock 2 : Int) - (clock 0 : Int)⟩ ::
        (channelEntries clock (clock 0) channels 3 ++
          [⟨"browser-off", clock (3 + 2 * channels.length),
            (clock (3 + 2 * channels.length) : Int) - (clock 0 : Int)⟩])) ++
      [⟨"sniffer-off", clock (4 + 2 * channels.length),
        (clock (4 + 2 * channels.length) : Int) - (clock 0 : Int)⟩] := by
    simp [runLog]
  rw [hre, List.getLast?_concat]
  rfl

theorem event_log_offsets_monotone_witness :
    (∀ i j : Nat, i ≤ j → sampleClock i ≤ sampleClock j) ∧
    ((runLog [sampleChannel] sampleClock).head? = some ⟨"origin", sampleClock 0, 0⟩ ∧
      (∀ e ∈ runLog [sampleChannel] sampleClock,
        e.rel = (e.abs : Int) - (sampleClock 0 : Int)) ∧
      List.Chain' (fun a b => a.rel ≤ b.rel) (runLog [sampleChannel] sampleClock) ∧
      ((runLog [sampleChannel] sampleClock).getLast?).map LogEntry.event =
        some "sniffer-off") :=
  ⟨fun _ _ h => h,
    event_log_offsets_monotone [sampleChannel] sampleClock (fun _ _ h => h)⟩

/-- C3: when a repetition fails and its catch handler runs to completion,
none of the three artifact files of that repetition exist afterwards. -/
theorem failed_run_artifacts_removed (exp : Experiment) (cfg : Config) (number : Nat)
    (b : ExtBehavior) (fs0 : List String)
    (h : (runRep exp cfg number b fs0).outcome = RepOutcome.failedCleaned) :
    ∀ f ∈ artifactPaths exp.outputDir number, f ∉ (runRep exp cfg number b fs0).fs := by
  obtain ⟨fsE, hfs⟩ := runRep_failedCleaned_fs h
  intro f hf
  rw [hfs]
  exact not_mem_cleanFiles hf

theorem failed_run_artifacts_removed_witness :
    (runRep sampleExp sampleCfg 0 gotoFailBehavior []).outcome =
      RepOutcome.failedCleaned ∧
    ∀ f ∈ artifactPaths sampleExp.outputDir 0,
      f ∉ (runRep sampleExp sampleCfg 0 gotoFailBehavior []).fs :=
  ⟨by decide,
    failed_run_artifacts_removed sampleExp sampleCfg 0 gotoFailBehavior [] (by decide)⟩

/-- C4 counterexample: with a navigation failure and a browser close that also
rejects inside the catch handler, the handler's later cleanup actions never
run: the exception escapes, the event-log file is still on disk and no kill
signal was ever sent, so the cleanup actions are not independently guarded. -/
theorem cleanup_not_guarded_cex :
    (runRep sampleExp sampleCfg 0 gotoCloseFailBehavior []).outcome =
      RepOutcome.uncaught ∧
    logBotFile "out" 0 ∈ (runRep sampleExp sampleCfg 0 gotoCloseFailBehavior []).fs ∧
    Effect.killSignal "SIGTERM" ∉
      (runRep sampleExp sampleCfg 0 gotoCloseFailBehavior []).effects := by
  decide

/-- C4 amended: the catch handler runs close, then file deletion, then the
sniffer stop, in that order, but the actions are chained without individual
guards: if the browser close rejects in the handler, the deletion and the
sniffer stop do not execute and the exception escapes the handler; they all
execute exactly when the close does not reject. -/
theorem cleanup_not_guarded (exp : Experiment) (cfg : Config) (number : Nat)
    (b : ExtBehavior) (fs0 : List String)
    (hg : b.gotoFails = some 0) (hl : b.launchFails = false)
    (hh : b.harStartFails = false) :
    (b.closeFails = true →
      (runRep exp cfg number b fs0).outcome = RepOutcome.uncaught ∧
      logBotFile exp.outputDir number ∈ (runRep exp cfg number b fs0).fs ∧
      ∀ sig, Effect.killSignal sig ∉ (runRep exp cfg number b fs0).effects) ∧
    (b.closeFails = false →
      (runRep exp cfg number b fs0).outcome = RepOutcome.failedCleaned ∧
      (∀ f ∈ artifactPaths exp.outputDir number, f ∉ (runRep exp cfg number b fs0).fs) ∧
      Effect.killSignal Sniffer.defaultStopSignal ∈
        (runRep exp cfg number b fs0).effects) := by
  have htb : tryBody exp cfg number b fs0 = Except.error
      ((if b.spawnFails = true
          then appendFile (logBotFile exp.outputDir number) fs0
          else appendFile (logNetFile exp.outputDir number)
            (appendFile (logBotFile exp.outputDir number) fs0)),
        ((if b.spawnFails = true then [Effect.startErrorNotice] else ([] : List Effect)) ++
          [Effect.waitMs exp.fastAwait]),
        true) := by
    simp only [tryBody]
    rw [if_neg (by simp [hl]), if_neg (by simp [hh]), if_pos hg]
  have hr := runRep_of_tryBody_error htb
  have hmem : logBotFile exp.outputDir number ∈ (if b.spawnFails = true
      then appendFile (logBotFile exp.outputDir number) fs0
      else appendFile (logNetFile exp.outputDir number)
        (appendFile (logBotFile exp.outputDir number) fs0)) := by
    split
    · exact self_mem_appendFile _ _
    · exact mem_appendFile_of_mem (self_mem_appendFile _ _)
  constructor
  · intro hcf
    rw [hr, catchHandler_uncaught (by simp [hcf])]
    refine ⟨rfl, hmem, ?_⟩
    intro sig hk
    rcases List.mem_append.mp hk with hk | hk
    · split at hk <;> simp at hk
    · simp at hk
  · intro hcf
    rw [hr, catchHandler_cleaned (by simp [hcf])]
    refine ⟨rfl, ?_, ?_⟩
    · intro f hf
      exact not_mem_cleanFiles hf
    · refine List.mem_append.mpr (Or.inr ?_)
      simp [Sniffer.stop, Sniffer.start]

theorem cleanup_not_guarded_witness :
    gotoCloseFailBehavior.gotoFails = some 0 ∧
    gotoCloseFailBehavior.launchFails = false ∧
    gotoCloseFailBehavior.harStartFails = false ∧
    ((gotoCloseFailBehavior.closeFails = true →
      (runRep sampleExp sampleCfg 0 gotoCloseFailBehavior []).outcome =
        RepOutcome.uncaught ∧
      logBotFile sampleExp.outputDir 0 ∈
        (runRep sampleExp sampleCfg 0 gotoCloseFailBehavior []).fs ∧
      ∀ sig, Effect.killSignal sig ∉
        (runRep sampleExp sampleCfg 0 gotoCloseFailBehavior []).effects) ∧
    (gotoCloseFailBehavior.closeFails = false →
      (runRep sampleExp sampleCfg 0 gotoCloseFailBehavior []).outcome =
        RepOutcome.failedCleaned ∧
      (∀ f ∈ artifactPaths sampleExp.outputDir 0,
        f ∉ (runRep sampleExp sampleCfg 0 gotoCloseFailBehavior []).fs) ∧
      Effect.killSignal Sniffer.defaultStopSignal ∈
        (runRep sampleExp sampleCfg 0 gotoCloseFailBehavior []).effects)) :=
  ⟨rfl, rfl, rfl,
    cleanup_not_guarded sampleExp sampleCfg 0 gotoCloseFailBehavior [] rfl rfl rfl⟩

/-- C5 counterexample: when only the capture-binary spawn fails, the
repetition does not abort: it completes with outcome success and both the
event-log and traffic-log files persist, so the failure handler never runs. -/
theorem spawn_failure_run_completes_cex :
    (runRep sampleExp sampleCfg 0 spawnFailBehavior []).outcome =
      RepOutcome.success ∧
    logBotFile "out" 0 ∈ (runRep sampleExp sampleCfg 0 spawnFailBehavior []).fs ∧
    logHarFile "out" 0 ∈ (runRep sampleExp sampleCfg 0 spawnFailBehavior []).fs := by
  decide

/-- C5 amended: a missing capture binary surfaces only as an asynchronous
start-error notification; no exception enters the run flow, so when nothing
else fails the repetition completes successfully, its event-log and
traffic-log persist, and no capture file is produced. -/
theorem spawn_failure_notification_only (exp : Experiment) (cfg : Config)
    (number : Nat) (fs0 : List String)
    (hnet : logNetFile exp.outputDir number ∉ fs0) :
    (runRep exp cfg number spawnFailBehavior fs0).outcome = RepOutcome.success ∧
    Effect.startErrorNotice ∈ (runRep exp cfg number spawnFailBehavior fs0).effects ∧
    logBotFile exp.outputDir number ∈ (runRep exp cfg number spawnFailBehavior fs0).fs ∧
    logHarFile exp.outputDir number ∈ (runRep exp cfg number spawnFailBehavior fs0).fs ∧
    logNetFile exp.outputDir number ∉ (runRep exp cfg number spawnFailBehavior fs0).fs := by
  obtain ⟨eff, htb, hnotice⟩ := tryBody_spawnFail_ok exp cfg number spawnFailBehavior fs0
    rfl rfl rfl rfl rfl rfl
  rw [runRep_of_tryBody_ok htb]
  have hnb : logNetFile exp.outputDir number ≠ logBotFile exp.outputDir number := by
    simp only [logNetFile, logBotFile]
    exact logFile_kind_ne (by decide) (by decide)
  have hnh : logNetFile exp.outputDir number ≠ logHarFile exp.outputDir number := by
    simp only [logNetFile, logHarFile]
    exact logFile_kind_ne (by decide) (by decide)
  refine ⟨rfl, hnotice, ?_, ?_, ?_⟩
  · exact mem_appendFile_of_mem (self_mem_appendFile _ _)
  · exact self_mem_appendFile _ _
  · intro hc
    rw [mem_appendFile_ne hnh, mem_appendFile_ne hnb] at hc
    exact hnet hc

theorem spawn_failure_notification_only_witness :
    (logNetFile sampleExp.outputDir 0 ∉ ([] : List String)) ∧
    ((runRep sampleExp sampleCfg 0 spawnFailBehavior []).outcome =
      RepOutcome.success ∧
    Effect.startErrorNotice ∈ (runRep sampleExp sampleCfg 0 spawnFailBehavior []).effects ∧
    logBotFile sampleExp.outputDir 0 ∈
      (runRep sampleExp sampleCfg 0 spawnFailBehavior []).fs ∧
    logHarFile sampleExp.outputDir 0 ∈
      (runRep sampleExp sampleCfg 0 spawnFailBehavior []).fs ∧
    logNetFile sampleExp.outputDir 0 ∉
      (runRep sampleExp sampleCfg 0 spawnFailBehavior []).fs) :=
  ⟨by decide, spawn_failure_notification_only sampleExp sampleCfg 0 [] (by decide)⟩

/-- C6 counterexample: with two configured repetitions where the first one
fails and its cleanup browser close also rejects, the exception escapes the
catch handler, the loop stops after one repetition, and the process does not
resolve with exit status 0. -/
theorem loop_error_propagation_cex :
    (mainModel ⟨true⟩ "t" sampleCfg "out" (fun _ => gotoCloseFailBehavior)).attempted
      = 1 ∧
    sampleCfg.repetitions = 2 ∧
    (mainModel ⟨true⟩ "t" sampleCfg "out" (fun _ => gotoCloseFailBehavior)).exitCode
      ≠ some 0 := by
  decide

/-- C6 amended: exceptions inside a repetition's try block never escape the
loop; but an exception from the catch handler itself can.  When the cleanup
browser close never rejects, every configured repetition is attempted and the
process exits with status 0 regardless of individual run failures. -/
theorem loop_completes_when_cleanup_close_succeeds (w : World) (t : String)
    (cfg : Config) (dir : String) (beh : Nat → ExtBehavior)
    (hw : w.userDataExists = true) (hbeh : ∀ k, (beh k).closeFails = false) :
    (mainModel w t cfg dir beh).attempted = cfg.repetitions ∧
    (mainModel w t cfg dir beh).exitCode = some 0 := by
  obtain ⟨h1, h2⟩ := runLoop_all_attempted (makeExperiment cfg dir) cfg beh hbeh
    cfg.repetitions 0 []
  simp only [mainModel]
  rw [if_neg (by simp [hw])]
  refine ⟨h1, ?_⟩
  show (if (runLoop (makeExperiment cfg dir) cfg beh cfg.repetitions 0 []).uncaughtError
      = true then none else some 0) = some 0
  rw [h2]
  simp

theorem loop_completes_when_cleanup_close_succeeds_witness :
    (⟨true⟩ : World).userDataExists = true ∧
    (∀ k : Nat, ((fun _ => okBehavior) k).closeFails = false) ∧
    ((mainModel ⟨true⟩ "t" sampleCfg "out" (fun _ => okBehavior)).attempted =
      sampleCfg.repetitions ∧
    (mainModel ⟨true⟩ "t" sampleCfg "out" (fun _ => okBehavior)).exitCode = some 0) :=
  ⟨rfl, fun _ => rfl,
    loop_completes_when_cleanup_close_succeeds ⟨true⟩ "t" sampleCfg "out"
      (fun _ => okBehavior) rfl (fun _ => rfl)⟩

/-- C7: the sniffer stop operation defaults to SIGTERM and is idempotent:
stopping a never-started controller sends nothing and changes nothing, and a
second stop after a first one sends no further signal and changes nothing. -/
theorem sniffer_stop_idempotent :
    Sniffer.defaultStopSignal = "SIGTERM" ∧
    (∀ path sig : String, Sniffer.stop ⟨path, none⟩ sig = (⟨path, none⟩, [])) ∧
    (∀ (s : Sniffer) (sig1 sig2 : String),
      Sniffer.stop (Sniffer.stop s sig1).1 sig2 = ((Sniffer.stop s sig1).1, [])) := by
  refine ⟨rfl, ?_, sniffer_stop_stop⟩
  intro path sig
  rfl

/-- C8: when the persistent-profile directory is missing, the process prints
exactly the fixed two-line message and exits with the nonzero status 1 before
creating any output directory and before any repetition starts. -/
theorem preflight_missing_profile_exits (w : World) (t : String) (cfg : Config)
    (dir : String) (beh : Nat → ExtBehavior) (hw : w.userDataExists = false) :
    mainModel w t cfg dir beh = ⟨checkCookiesLines t, some 1, 0, 0⟩ ∧
    (checkCookiesLines t).length = 2 ∧ (1 : Nat) ≠ 0 := by
  refine ⟨?_, rfl, by omega⟩
  simp [mainModel, hw]

theorem preflight_missing_profile_exits_witness :
    (⟨false⟩ : World).userDataExists = false ∧
    (mainModel ⟨false⟩ "t" sampleCfg "out" (fun _ => okBehavior) =
      ⟨checkCookiesLines "t", some 1, 0, 0⟩ ∧
    (checkCookiesLines "t").length = 2 ∧ (1 : Nat) ≠ 0) :=
  ⟨rfl,
    preflight_missing_profile_exits ⟨false⟩ "t" sampleCfg "out" (fun _ => okBehavior) rfl⟩

/-- C9: the orchestrator's wait durations are the configured seconds scaled by
1000 to milliseconds, the watch interval is the long interval times 30
seconds, and the drain wait after closing the browser is exactly twice the
long interval. -/
theorem await_scaling (cfg : Config) (dir : String) :
    (makeExperiment cfg dir).fastAwait = cfg.fastAwait * 1000 ∧
    (makeExperiment cfg dir).longAwait = cfg.longAwait * 1000 ∧
    (makeExperiment cfg dir).watchAwait = cfg.longAwait * 1000 * 30 ∧
    drainAwait (makeExperiment cfg dir) = 2 * (cfg.longAwait * 1000) := by
  refine ⟨rfl, rfl, rfl, ?_⟩
  simp [drainAwait, makeExperiment]
  ring

/-- C10: one output directory is created once at startup and shared by all
repetitions, distinct repetitions have pairwise disjoint artifact path sets,
and a repetition (whatever its outcome) never adds or removes a file that
belongs to a different repetition's artifact set. -/
theorem runs_artifacts_disjoint (exp : Experiment) (cfg : Config) (i j : Nat)
    (b : ExtBehavior) (fs : List String) (f : String) (w : World) (t : String)
    (hw : w.userDataExists = true) (hij : i ≠ j)
    (hf : f ∈ artifactPaths exp.outputDir i) :
    (mainModel w t cfg exp.outputDir (fun _ => b)).dirsCreated = 1 ∧
    f ∉ artifactPaths exp.outputDir j ∧
    (f ∈ (runRep exp cfg j b fs).fs ↔ f ∈ fs) := by
  refine ⟨?_, artifactPaths_disjoint hij f hf, ?_⟩
  · simp [mainModel, hw]
  · exact runRep_fs_outside exp cfg j b fs f (artifactPaths_disjoint hij f hf)

theorem runs_artifacts_disjoint_witness :
    (⟨true⟩ : World).userDataExists = true ∧ (0 : Nat) ≠ 1 ∧
    logNetFile sampleExp.outputDir 0 ∈ artifactPaths sampleExp.outputDir 0 ∧
    ((mainModel ⟨true⟩ "t" sampleCfg sampleExp.outputDir
        (fun _ => okBehavior)).dirsCreated = 1 ∧
    logNetFile sampleExp.outputDir 0 ∉ artifactPaths sampleExp.outputDir 1 ∧
    (logNetFile sampleExp.outputDir 0 ∈ (runRep sampleExp sampleCfg 1 okBehavior []).fs ↔
      logNetFile sampleExp.outputDir 0 ∈ ([] : List String))) :=
  ⟨rfl, by decide, by decide,
    runs_artifacts_disjoint sampleExp sampleCfg 0 1 okBehavior []
      (logNetFile sampleExp.outputDir 0) ⟨true⟩ "t" rfl (by decide) (by decide)⟩
